import Mathlib

/-!
# Download dialog of FreeCAD (`src/Gui/DownloadDialog.cpp`)

A shallow embedding of the slots of `Gui::Dialog::DownloadDialog` as state
transformers, followed by theorems about them.

The state of one dialog object is the record `DownloadDialog`.  Besides the
C++ members it carries the part of the environment the slots act on: the
files of the current directory (`storage`), the commands given to the
network access manager (`_qnam`), the modal boxes shown and the console log.

Values that a slot obtains from its environment are arguments of the
embedded slot: the answer to the overwrite question, whether `QFile::open`
and `QFile::remove` succeed, the bytes returned by `_qnr->readAll()`, the
error of the reply.  A slot that dereferences a null pointer returns `none`.

The signals of the reply are connected to the slots of the dialog in the
thread of the dialog, so a slot runs inside the call that emits its signal:
`_qnr->abort()` on a reply that has not finished emits `error()` and
`finished()`, and `onError` and `onFinished` run before `abort()` returns.
-/

namespace Gui.Dialog

/-! ## Data model -/

/-- One byte of a `QByteArray` or of a file. -/
abbrev Byte := Fin 256

/-- Contents of a `QByteArray` or of a file. -/
abbrev Bytes := List Byte

/-- Files of the current directory: the content stored under each name, `none`
when no file of that name exists. -/
abbrev Storage := String → Option Bytes

/-- The `QUrl` given to the constructor. -/
structure QUrl where
  scheme : String
  host : String
  path : String

/-- A `QFile` object: the name it was constructed with and whether it is open. -/
structure QFile where
  fileName : String
  isOpen : Bool

/-- The `QProgressBar` of the dialog as the slots drive it: the `int` arguments
of the last `setMaximum` and `setValue` calls and whether `hide()` was called. -/
structure QProgressBar where
  maximum : Int
  value : Int
  hidden : Bool

/-- Commands received by the `QNetworkAccessManager` and by the replies it
created.  A reply is named by the index of its request in `requests`. -/
structure QNetworkAccessManager where
  /-- the `get` requests issued so far, oldest first -/
  requests : List QUrl
  /-- replies on which `abort()` was called, oldest first -/
  aborted : List Nat
  /-- replies handed to `deleteLater()`, oldest first -/
  deleted : List Nat

/-- A line written by `Base::Console().Log`. -/
inductive LogEntry where
  | networkError (code : Nat) (text : String)
  | sslError (code : Nat) (text : String)

/-- State of a `DownloadDialog` object and of the environment its slots act on. -/
structure DownloadDialog where
  /-- text of `statusLabel` -/
  statusLabel : String
  progressBar : QProgressBar
  /-- `downloadButton->isEnabled()` -/
  downloadButtonEnabled : Bool
  /-- `cancelButton` is shown (not hidden) -/
  cancelButtonShown : Bool
  /-- `closeButton` is shown (not hidden) -/
  closeButtonShown : Bool
  url : QUrl
  /-- the member `QFile *file`; `none` is `NULL` -/
  file : Option QFile
  qNetworkReplyAborted : Bool
  _qnam : QNetworkAccessManager
  /-- the member `QNetworkReply *_qnr`; `none` is `NULL` -/
  _qnr : Option Nat
  /-- files of the current directory -/
  storage : Storage
  /-- `close()` was called on the dialog -/
  closed : Bool
  /-- texts of the `QMessageBox::information` boxes shown, oldest first -/
  messageBoxes : List String
  /-- lines written to the console, oldest first -/
  consoleLog : List LogEntry

/-- What the environment answers during one call of `downloadFile`. -/
structure DownloadEnv where
  /-- the answer to the overwrite question, `true` for Yes; asked only when a
  file of the target name exists -/
  overwrite : Bool
  /-- `QFile::remove(fileName)` at line 93 succeeds -/
  removeExisting : Bool
  /-- `file->remove()` at line 98 succeeds -/
  removeHeld : Bool
  /-- `file->open(QIODevice::WriteOnly)` at line 103 succeeds -/
  openOk : Bool

/-- `QNetworkReply::NoError`. -/
def NoError : Nat := 0

/-- `QNetworkReply::OperationCanceledError`, the error of an aborted reply. -/
def OperationCanceledError : Nat := 5

/-! ## Library operations used by the slots -/

/-- `QUrl::toString()`. -/
def QUrl.toString (u : QUrl) : String :=
  u.scheme ++ "://" ++ u.host ++ u.path

/-- Characters after the last `/` of a path. -/
def fileNameChars (cs : List Char) : List Char :=
  cs.foldl (fun acc c => if c = '/' then [] else acc ++ [c]) []

/-- `QFileInfo(path).fileName()`: the name of the file without its directories. -/
def QFileInfo.fileName (path : String) : String :=
  String.mk (fileNameChars path.data)

/-- `QFile::remove`, whose result the slots ignore: when the removal succeeds
(`ok`) no file of that name exists afterwards, when it fails the files are as
before. -/
def Storage.remove (st : Storage) (name : String) (ok : Bool) : Storage :=
  if ok then fun n => if n = name then none else st n else st

/-- A successful `QFile::open(QIODevice::WriteOnly)`: the file exists and is empty. -/
def Storage.truncate (st : Storage) (name : String) : Storage :=
  fun n => if n = name then some [] else st n

/-- Bytes written through an open `QFile` are appended to the file of that name.
When the file was unlinked in the meantime they are not visible under the name. -/
def Storage.append (st : Storage) (name : String) (data : Bytes) : Storage :=
  fun n => if n = name then (st n).map (fun old => old ++ data) else st n

/-- A `quint32` as `QDataStream` writes it: four bytes, most significant first. -/
def quint32Bytes (n : Nat) : Bytes :=
  [Fin.ofNat (n / 2 ^ 24), Fin.ofNat (n / 2 ^ 16), Fin.ofNat (n / 2 ^ 8), Fin.ofNat n]

/-- What `QDataStream::operator<<` writes for a `QByteArray`, the serialisation
format of Qt: `0xFFFFFFFF` for a null array, otherwise the size as a `quint32`
followed by the bytes.  `QIODevice::readAll()` returns a null array when it
read nothing, so the empty list stands for the null array. -/
def QDataStream.serialize (ba : Bytes) : Bytes :=
  if ba = [] then [255, 255, 255, 255]
  else quint32Bytes (ba.length % 2 ^ 32) ++ ba

/-- Executes `writeStream << ba` for a stream on the device `file`.  A device
that is not open takes no bytes. -/
def QDataStream.write (st : Storage) (file : QFile) (ba : Bytes) : Storage :=
  if file.isOpen then st.append file.fileName (QDataStream.serialize ba) else st

/-- The conversion of a `qint64` argument to the `int` parameter of
`QProgressBar::setMaximum` and `QProgressBar::setValue`: the value modulo
`2 ^ 32` in the range of a 32-bit `int`. -/
def qint64ToInt (x : Int) : Int :=
  (x + 2 ^ 31) % 2 ^ 32 - 2 ^ 31

/-- `QNetworkAccessManager::get`: the request is recorded and a new reply is
returned, named by the index of the request. -/
def QNetworkAccessManager.get (m : QNetworkAccessManager) (u : QUrl) :
    QNetworkAccessManager × Nat :=
  ({ m with requests := m.requests ++ [u] }, m.requests.length)

/-- `QNetworkReply::abort()` on reply `r`. -/
def QNetworkAccessManager.abort (m : QNetworkAccessManager) (r : Nat) :
    QNetworkAccessManager :=
  { m with aborted := m.aborted ++ [r] }

/-- `QObject::deleteLater()` on reply `r`. -/
def QNetworkAccessManager.deleteLater (m : QNetworkAccessManager) (r : Nat) :
    QNetworkAccessManager :=
  { m with deleted := m.deleted ++ [r] }

/-! ## The constructor and the slots -/

/-- `DownloadDialog::DownloadDialog(url, parent)`.  The constructor does not
initialise `qNetworkReplyAborted`; `flag` is the value the member happens to
hold.  A new `QProgressBar` has maximum 100 and value -1. -/
def DownloadDialog.create (url : QUrl) (flag : Bool) (storage : Storage) : DownloadDialog :=
  { statusLabel := url.toString
    progressBar := { maximum := 100, value := -1, hidden := false }
    downloadButtonEnabled := true
    cancelButtonShown := false
    closeButtonShown := true
    url := url
    file := none
    qNetworkReplyAborted := flag
    _qnam := { requests := [], aborted := [], deleted := [] }
    _qnr := none
    storage := storage
    closed := false
    messageBoxes := []
    consoleLog := [] }

/-- `DownloadDialog::downloadFile()`.  The text of the box shown when the open
fails is recorded without `file->errorString()`. -/
def downloadFile (s : DownloadDialog) (env : DownloadEnv) : DownloadDialog :=
  let fileName := QFileInfo.fileName s.url.path
  if (s.storage fileName).isSome && !env.overwrite then
    -- the question was answered No
    s
  else
    -- QFile::remove(fileName) inside `if (QFile::exists(fileName))`
    let st1 :=
      if (s.storage fileName).isSome then s.storage.remove fileName env.removeExisting
      else s.storage
    -- if (file) { file->close(); file->remove(); file->deleteLater(); file = NULL; }
    let st2 := match s.file with
      | some f => st1.remove f.fileName env.removeHeld
      | none => st1
    -- file = new QFile(fileName); if (!file->open(QIODevice::WriteOnly)) ...
    if !env.openOk then
      { s with
        storage := st2
        messageBoxes := s.messageBoxes ++ ["Unable to save the file " ++ fileName]
        file := none }
    else
      -- if (_qnr) { disconnect(_qnr); _qnr->deleteLater(); }
      let m1 := match s._qnr with
        | some r => s._qnam.deleteLater r
        | none => s._qnam
      -- _qnr = _qnam->get(request);
      let (m2, r) := m1.get s.url
      { s with
        storage := st2.truncate fileName
        file := some { fileName := fileName, isOpen := true }
        qNetworkReplyAborted := false
        _qnam := m2
        _qnr := some r
        statusLabel := "Downloading " ++ fileName ++ "."
        downloadButtonEnabled := false
        cancelButtonShown := true
        closeButtonShown := false }

/-- `DownloadDialog::onError()`; `code` and `text` are `_qnr->error()` and
`_qnr->errorString()`. -/
def onError (s : DownloadDialog) (code : Nat) (text : String) : DownloadDialog :=
  match s._qnr with
  | none => s
  | some _ => { s with consoleLog := s.consoleLog ++ [LogEntry.networkError code text] }

/-- `DownloadDialog::onSslErrors(qsslErrs)`; each error is its code and text. -/
def onSslErrors (s : DownloadDialog) (qsslErrs : List (Nat × String)) : DownloadDialog :=
  match s._qnr with
  | none => s
  | some _ =>
    { s with
      consoleLog := s.consoleLog ++ qsslErrs.map (fun e => LogEntry.sslError e.1 e.2) }

/-- `DownloadDialog::onFinished()`.  `rest` is what `_qnr->readAll()` returns,
`error` and `errorString` are `_qnr->error()` and `_qnr->errorString()`, and
`removeOk` tells whether `file->remove()` succeeds. -/
def onFinished (s : DownloadDialog) (rest : Bytes) (error : Nat) (errorString : String)
    (removeOk : Bool) : Option DownloadDialog :=
  if s.qNetworkReplyAborted then
    -- if (file) { file->close(); file->remove(); file->deleteLater(); file = NULL; }
    let st := match s.file with
      | some f => s.storage.remove f.fileName removeOk
      | none => s.storage
    some { s with
      storage := st
      file := none
      progressBar := { s.progressBar with hidden := true } }
  else
    match s._qnr, s.file with
    | none, _ => none        -- _qnr->readAll() on a null pointer
    | some _, none => none   -- the stream has no device; file->close() on a null pointer
    | some r, some f =>
      -- writeStream << _qnr->readAll();
      let st1 := QDataStream.write s.storage f rest
      -- file->close(); if (_qnr->error() != NoError) file->remove(); else status text
      let failed := error != NoError
      some { s with
        storage := if failed then st1.remove f.fileName removeOk else st1
        progressBar := { s.progressBar with hidden := true }
        messageBoxes :=
          if failed then s.messageBoxes ++ ["Download failed: " ++ errorString ++ "."]
          else s.messageBoxes
        statusLabel :=
          if failed then s.statusLabel
          else "Downloaded " ++ QFileInfo.fileName s.url.path ++ " to current directory."
        downloadButtonEnabled := true
        cancelButtonShown := false
        closeButtonShown := true
        file := none
        _qnam := s._qnam.deleteLater r
        _qnr := none }

/-- The state inside `cancelDownload` at the moment `abort()` is called on the
reply `r`: lines 138 and 139 have set the status text and the abort flag. -/
def abortRequested (s : DownloadDialog) (r : Nat) : DownloadDialog :=
  { s with
    statusLabel := "Download canceled."
    qNetworkReplyAborted := true
    _qnam := s._qnam.abort r }

/-- `DownloadDialog::cancelDownload()`.  `_qnr->abort()` dereferences `_qnr`.
`replyLive` tells whether the reply has still to finish: then `abort()` emits
`error(OperationCanceledError)` and `finished()`, so that `onError` and
`onFinished` run before it returns; `abort()` on a reply that has finished
emits nothing.  `removeOk` is the answer to the `file->remove()` of that
`onFinished`. -/
def cancelDownload (s : DownloadDialog) (replyLive removeOk : Bool) : Option DownloadDialog :=
  match s._qnr with
  | none => none
  | some r =>
    -- statusLabel->setText(tr("Download canceled.")); qNetworkReplyAborted = true;
    let s1 := abortRequested s r
    -- _qnr->abort();
    let s2 :=
      if replyLive then
        onFinished (onError s1 OperationCanceledError "Operation canceled") []
          OperationCanceledError "Operation canceled" removeOk
      else some s1
    -- close();
    s2.map (fun d => { d with closed := true })

/-- `DownloadDialog::onAuthenticationRequired(reply, authenticator)`.  `answer`
is the user name and password typed when the authorization dialog is accepted;
the result pairs the unchanged dialog with what is stored in the authenticator. -/
def onAuthenticationRequired (s : DownloadDialog) (answer : Option (String × String)) :
    DownloadDialog × Option (String × String) :=
  (s, answer)

/-- `DownloadDialog::onDownloadProgress(bytesRead, totalBytes)`.  The `qint64`
arguments are converted to `int` at the calls of `setMaximum` and `setValue`. -/
def onDownloadProgress (s : DownloadDialog) (bytesRead totalBytes : Int) : DownloadDialog :=
  if s.qNetworkReplyAborted then s
  else
    { s with
      progressBar :=
        { s.progressBar with
          maximum := qint64ToInt totalBytes
          value := qint64ToInt bytesRead } }

/-- `DownloadDialog::onReadyRead()`; `chunk` is what `_qnr->readAll()` returns. -/
def onReadyRead (s : DownloadDialog) (chunk : Bytes) : Option DownloadDialog :=
  if s.qNetworkReplyAborted then some s
  else
    match s._qnr, s.file with
    | none, _ => none        -- _qnr->readAll() on a null pointer
    | some _, none => none   -- the stream has no device
    | some _, some f => some { s with storage := QDataStream.write s.storage f chunk }

/-! ## Sequences of slot calls -/

/-- A signal delivered to one slot together with the values the slot obtains
from its environment. -/
inductive Event where
  | downloadFile (env : DownloadEnv)
  | cancelDownload (removeOk : Bool)
  | onError (code : Nat) (text : String)
  | onSslErrors (qsslErrs : List (Nat × String))
  | onFinished (rest : Bytes) (error : Nat) (errorString : String) (removeOk : Bool)
  | onAuthenticationRequired (answer : Option (String × String))
  | onDownloadProgress (bytesRead totalBytes : Int)
  | onReadyRead (chunk : Bytes)

/-- Runs the slot named by the event; `none` when it dereferences a null
pointer.  `replyLive` tells whether the reply of the latest request has still
to finish. -/
def step (s : DownloadDialog) (replyLive : Bool) : Event → Option DownloadDialog
  | .downloadFile env => some (downloadFile s env)
  | .cancelDownload removeOk => cancelDownload s replyLive removeOk
  | .onError code text => some (onError s code text)
  | .onSslErrors qsslErrs => some (onSslErrors s qsslErrs)
  | .onFinished rest error errorString removeOk => onFinished s rest error errorString removeOk
  | .onAuthenticationRequired answer => some (onAuthenticationRequired s answer).1
  | .onDownloadProgress bytesRead totalBytes => some (onDownloadProgress s bytesRead totalBytes)
  | .onReadyRead chunk => onReadyRead s chunk

/-- The event belongs to a running transfer: it is neither `downloadFile` nor
`cancelDownload` nor `onFinished`. -/
def Event.isStream : Event → Bool
  | .downloadFile _ => false
  | .cancelDownload _ => false
  | .onFinished _ _ _ _ => false
  | _ => true

/-- What a sequence of `writeStream << chunk` statements writes. -/
def framed : List Bytes → Bytes
  | [] => []
  | c :: cs => QDataStream.serialize c ++ framed cs

/-- Tells whether `downloadFile` reaches `_qnam->get(request)`: the overwrite
question is not answered No and the destination opens. -/
def startsRequest (s : DownloadDialog) (env : DownloadEnv) : Bool :=
  (!(s.storage (QFileInfo.fileName s.url.path)).isSome || env.overwrite) && env.openOk

/-- The dialog together with what the transport knows: whether the reply of the
latest request has still to emit `finished()`. -/
structure Session where
  dialog : DownloadDialog
  replyLive : Bool

/-- Events the user interface and the transport can deliver: `downloadFile` is
connected to the download button, `cancelDownload` to the cancel button, and
`readyRead()` and `finished()` come from a reply that has not finished. -/
def Session.allowed (w : Session) : Event → Bool
  | .downloadFile _ => w.dialog.downloadButtonEnabled
  | .cancelDownload _ => w.dialog.cancelButtonShown
  | .onReadyRead _ => w.replyLive
  | .onFinished _ _ _ _ => w.replyLive
  | _ => true

/-- Whether the latest reply is live after the event. -/
def Session.liveAfter (w : Session) : Event → Bool
  | .downloadFile env => if startsRequest w.dialog env then true else w.replyLive
  | .cancelDownload _ => false
  | .onFinished _ _ _ _ => false
  | _ => w.replyLive

/-- Delivers one event to the dialog of the session. -/
def Session.next (w : Session) (e : Event) : Option Session :=
  (step w.dialog w.replyLive e).map (fun d => { dialog := d, replyLive := w.liveAfter e })

/-- Delivers the events one after the other, stopping at the first null
dereference. -/
def Session.run (w : Session) : List Event → Option Session
  | [] => some w
  | e :: es => (w.next e).bind (fun w1 => w1.run es)

/-- States of a dialog from its construction on, under events that are allowed. -/
inductive Session.Reachable : Session → Prop where
  | init (url : QUrl) (flag : Bool) (storage : Storage) :
      Session.Reachable { dialog := DownloadDialog.create url flag storage, replyLive := false }
  | next (w w2 : Session) (e : Event) :
      Session.Reachable w → w.allowed e = true → w.next e = some w2 → Session.Reachable w2

/-- The second session is reached from the first by allowed events. -/
inductive Session.Steps : Session → Session → Prop where
  | refl (w : Session) : Session.Steps w w
  | tail (w w1 w2 : Session) (e : Event) :
      Session.Steps w w1 → w1.allowed e = true → w1.next e = some w2 → Session.Steps w w2

/-! ## Predicates on states -/

/-- The dialog is between a `downloadFile` that opened `name` and the end of
the transfer. -/
def Active (s : DownloadDialog) (name : String) : Prop :=
  s.file = some { fileName := name, isOpen := true } ∧ s._qnr.isSome = true
    ∧ s.qNetworkReplyAborted = false

/-- What holds in every reachable session: while the reply is live the download
button is disabled, `_qnr` is set and, unless the session is cancelled, `file`
is set; while the cancel button is shown `_qnr` is set. -/
def Session.Inv (w : Session) : Prop :=
  (w.replyLive = true →
      w.dialog.downloadButtonEnabled = false ∧ w.dialog._qnr.isSome = true
        ∧ (w.dialog.qNetworkReplyAborted = false → w.dialog.file.isSome = true))
    ∧ (w.dialog.cancelButtonShown = true → w.dialog._qnr.isSome = true)

/-- What holds after a cancellation: the abort flag is set, the download button
is disabled and the reply has finished. -/
def Session.Cancelled (w : Session) : Prop :=
  w.dialog.qNetworkReplyAborted = true ∧ w.dialog.downloadButtonEnabled = false
    ∧ w.replyLive = false

/-- The cancel button and the download button are not offered together. -/
def Session.Exclusive (w : Session) : Prop :=
  w.dialog.cancelButtonShown = true → w.dialog.downloadButtonEnabled = false

/-- The environment of a directory in which files can be created and removed. -/
def writableDirectory : DownloadEnv :=
  { overwrite := true, removeExisting := true, removeHeld := true, openOk := true }

/-- The environment of a directory that cannot be changed: files in it can be
opened for writing, they can be neither created nor removed. -/
def lockedDirectory : DownloadEnv :=
  { overwrite := true, removeExisting := false, removeHeld := false, openOk := true }

/-- A dialog for `http://host/dir/file.bin` in an empty directory. -/
def exampleDialog : DownloadDialog :=
  DownloadDialog.create { scheme := "http", host := "host", path := "/dir/file.bin" } false
    (fun _ => none)

/-- The example dialog after `downloadFile` opened the destination. -/
def exampleActive : DownloadDialog :=
  downloadFile exampleDialog writableDirectory

/-- The session of the example dialog while its reply is live. -/
def exampleSession : Session :=
  { dialog := exampleActive, replyLive := true }

/-- A dialog for `http://host/dir/file.bin` in a directory that already holds
`file.bin` and `other.bin`. -/
def exampleExisting : DownloadDialog :=
  DownloadDialog.create { scheme := "http", host := "host", path := "/dir/file.bin" } false
    (fun n => if n = "file.bin" then some [1, 2, 3] else if n = "other.bin" then some [9] else none)

/-- The session of a download over the existing `file.bin` in a directory that
cannot be changed, while its reply is live. -/
def exampleLockedSession : Session :=
  { dialog := downloadFile exampleExisting lockedDirectory, replyLive := true }

/-! ## Lemmas on the slots -/

/-- A name holds after `remove` what it held before, or nothing. -/
theorem Storage.remove_apply_or (st : Storage) (name : String) (ok : Bool) (n : String) :
    st.remove name ok n = st n ∨ st.remove name ok n = none := by
  unfold Storage.remove
  cases ok
  · exact Or.inl rfl
  · by_cases h : n = name
    · exact Or.inr (by simp [h])
    · exact Or.inl (by simp [h])

/-- A name other than the removed one holds what it held before. -/
theorem Storage.remove_apply_of_ne (st : Storage) (name : String) (ok : Bool) (n : String)
    (h : n ≠ name) : st.remove name ok n = st n := by
  unfold Storage.remove
  cases ok <;> simp [h]

/-- After a removal that succeeds no file of the name exists. -/
theorem Storage.remove_apply_self (st : Storage) (name : String) :
    st.remove name true name = none := by
  simp [Storage.remove]

/-- A removal that fails leaves the files as they were. -/
theorem Storage.remove_of_fail (st : Storage) (name : String) :
    st.remove name false = st := by
  simp [Storage.remove]

/-- What `downloadFile` leaves behind when it starts a request. -/
theorem downloadFile_of_startsRequest (s : DownloadDialog) (env : DownloadEnv)
    (h : startsRequest s env = true) :
    (downloadFile s env).file
        = some { fileName := QFileInfo.fileName s.url.path, isOpen := true }
      ∧ (downloadFile s env)._qnr.isSome = true
      ∧ (downloadFile s env).qNetworkReplyAborted = false
      ∧ (downloadFile s env).storage (QFileInfo.fileName s.url.path) = some []
      ∧ (downloadFile s env).url = s.url
      ∧ (downloadFile s env).downloadButtonEnabled = false
      ∧ (downloadFile s env).cancelButtonShown = true := by
  simp only [startsRequest, Bool.and_eq_true, Bool.or_eq_true, Bool.not_eq_true'] at h
  obtain ⟨h1, h2⟩ := h
  have hq : ((s.storage (QFileInfo.fileName s.url.path)).isSome && !env.overwrite) = false := by
    rcases h1 with h1 | h1 <;> simp [h1]
  simp [downloadFile, hq, h2, QNetworkAccessManager.get, Storage.truncate]

/-- Without a request `downloadFile` leaves the handles of the network, the
abort flag and the buttons as they were. -/
theorem downloadFile_of_not_startsRequest (s : DownloadDialog) (env : DownloadEnv)
    (h : startsRequest s env = false) :
    (downloadFile s env)._qnr = s._qnr
      ∧ (downloadFile s env)._qnam = s._qnam
      ∧ (downloadFile s env).qNetworkReplyAborted = s.qNetworkReplyAborted
      ∧ (downloadFile s env).downloadButtonEnabled = s.downloadButtonEnabled
      ∧ (downloadFile s env).cancelButtonShown = s.cancelButtonShown
      ∧ ((downloadFile s env).file = s.file ∨ (downloadFile s env).file = none) := by
  simp only [startsRequest, Bool.and_eq_false_iff, Bool.or_eq_false_iff,
    Bool.not_eq_false'] at h
  by_cases hq : ((s.storage (QFileInfo.fileName s.url.path)).isSome && !env.overwrite) = true
  · simp [downloadFile, hq]
  · have hq2 : ((s.storage (QFileInfo.fileName s.url.path)).isSome && !env.overwrite)
        = false := by
      simpa using hq
    have hok : env.openOk = false := by
      rcases h with ⟨h1, h2⟩ | h
      · simp [h1, h2] at hq2
      · exact h
    simp [downloadFile, hq2, hok]

/-- With a reply at hand `cancelDownload` returns.  It sets the abort flag and
the status text and calls `abort()`; when the reply is live the `onFinished`
that runs inside the call removes the file of the handle and drops the handle,
otherwise the handle and the files are as before. -/
theorem cancelDownload_of_reply (s : DownloadDialog) (r : Nat) (replyLive removeOk : Bool)
    (hr : s._qnr = some r) :
    ∃ s1, cancelDownload s replyLive removeOk = some s1
      ∧ s1.qNetworkReplyAborted = true
      ∧ s1.statusLabel = "Download canceled."
      ∧ s1._qnr = some r
      ∧ s1._qnam.aborted = s._qnam.aborted ++ [r]
      ∧ s1._qnam.requests = s._qnam.requests
      ∧ s1.downloadButtonEnabled = s.downloadButtonEnabled
      ∧ s1.cancelButtonShown = s.cancelButtonShown
      ∧ (replyLive = false → s1.file = s.file ∧ s1.storage = s.storage)
      ∧ (replyLive = true → s1.file = none
          ∧ s1.storage = (match s.file with
              | some f => s.storage.remove f.fileName removeOk
              | none => s.storage)) := by
  cases replyLive
  · simp only [cancelDownload, abortRequested, hr, Bool.false_eq_true, if_false,
      Option.map_some']
    exact ⟨_, rfl, rfl, rfl, rfl, rfl, rfl, rfl, rfl, fun _ => ⟨rfl, rfl⟩,
      fun h => absurd h (by simp)⟩
  · simp only [cancelDownload, abortRequested, hr, if_true, onError, onFinished,
      Option.map_some']
    exact ⟨_, rfl, rfl, rfl, rfl, rfl, rfl, rfl, rfl, fun h => absurd h (by simp),
      fun _ => ⟨rfl, rfl⟩⟩

/-- With the abort flag unset and both handles at hand `onFinished` returns. -/
theorem onFinished_of_active (s : DownloadDialog) (r : Nat) (f : QFile) (rest : Bytes)
    (error : Nat) (errorString : String) (removeOk : Bool)
    (hq : s.qNetworkReplyAborted = false) (hr : s._qnr = some r) (hf : s.file = some f) :
    ∃ s1, onFinished s rest error errorString removeOk = some s1
      ∧ s1.file = none ∧ s1._qnr = none
      ∧ s1.qNetworkReplyAborted = false
      ∧ s1.downloadButtonEnabled = true ∧ s1.cancelButtonShown = false
      ∧ s1.storage = (if error != NoError
          then (QDataStream.write s.storage f rest).remove f.fileName removeOk
          else QDataStream.write s.storage f rest) := by
  simp only [onFinished, hq, hr, hf, Bool.false_eq_true, if_false]
  exact ⟨_, rfl, rfl, rfl, rfl, rfl, rfl, rfl⟩

/-- An event of a running transfer keeps the dialog active and the file in place. -/
theorem step_stream_of_active (s : DownloadDialog) (name : String) (replyLive : Bool)
    (e : Event) (ha : Active s name) (he : e.isStream = true) :
    ∃ s1, step s replyLive e = some s1 ∧ Active s1 name ∧ s1.url = s.url
      ∧ ((s.storage name).isSome = true → (s1.storage name).isSome = true) := by
  obtain ⟨hf, hr, hq⟩ := ha
  obtain ⟨r, hr⟩ := Option.isSome_iff_exists.mp hr
  cases e with
  | downloadFile env => simp [Event.isStream] at he
  | cancelDownload removeOk => simp [Event.isStream] at he
  | onFinished rest error errorString removeOk => simp [Event.isStream] at he
  | onError code text =>
    refine ⟨_, rfl, ?_, ?_, ?_⟩ <;> simp [onError, hr, Active, hf, hq]
  | onSslErrors qsslErrs =>
    refine ⟨_, rfl, ?_, ?_, ?_⟩ <;> simp [onSslErrors, hr, Active, hf, hq]
  | onAuthenticationRequired answer =>
    refine ⟨_, rfl, ?_, ?_, ?_⟩ <;> simp [onAuthenticationRequired, hr, Active, hf, hq]
  | onDownloadProgress bytesRead totalBytes =>
    refine ⟨_, rfl, ?_, ?_, ?_⟩ <;> simp [onDownloadProgress, hr, Active, hf, hq]
  | onReadyRead chunk =>
    simp only [step, onReadyRead, hq, hr, hf, Bool.false_eq_true, if_false]
    refine ⟨_, rfl, ?_, ?_, ?_⟩ <;>
      simp [Active, hf, hr, hq, QDataStream.write, Storage.append]

/-- A run of events of a running transfer keeps the reply live, the dialog
active and the file in place. -/
theorem Session.run_stream_of_active (evs : List Event) (s : DownloadDialog) (name : String)
    (ha : Active s name) (he : evs.all Event.isStream = true) :
    ∃ s1, Session.run { dialog := s, replyLive := true } evs
        = some { dialog := s1, replyLive := true }
      ∧ Active s1 name ∧ s1.url = s.url
      ∧ ((s.storage name).isSome = true → (s1.storage name).isSome = true) := by
  induction evs generalizing s with
  | nil => exact ⟨s, rfl, ha, rfl, fun h => h⟩
  | cons e es ih =>
    simp only [List.all_cons, Bool.and_eq_true] at he
    obtain ⟨s1, h1, ha1, hu1, hs1⟩ := step_stream_of_active s name true e ha he.1
    obtain ⟨s2, h2, ha2, hu2, hs2⟩ := ih s1 ha1 he.2
    have hlive : Session.liveAfter { dialog := s, replyLive := true } e = true := by
      cases e <;> simp [Event.isStream] at he <;> rfl
    refine ⟨s2, ?_, ha2, hu2.trans hu1, fun h => hs2 (hs1 h)⟩
    simp [Session.run, Session.next, h1, hlive, h2]

/-- An allowed event preserves the invariant. -/
theorem Session.inv_next (w w2 : Session) (e : Event) (hinv : w.Inv)
    (hallowed : w.allowed e = true) (hnext : w.next e = some w2) : w2.Inv := by
  obtain ⟨hlive, hcancel⟩ := hinv
  cases hs : step w.dialog w.replyLive e with
  | none => simp [Session.next, hs] at hnext
  | some d =>
    simp only [Session.next, hs, Option.map_some', Option.some.injEq] at hnext
    subst hnext
    cases e with
    | downloadFile env =>
      simp only [step, Option.some.injEq] at hs
      subst hs
      simp only [Session.allowed] at hallowed
      by_cases hst : startsRequest w.dialog env = true
      · obtain ⟨hf, hr, hq, -, -, hb, hc⟩ := downloadFile_of_startsRequest w.dialog env hst
        exact ⟨fun _ => ⟨hb, hr, fun _ => by simp [hf]⟩, fun _ => hr⟩
      · have hst2 : startsRequest w.dialog env = false := by simpa using hst
        obtain ⟨hr, -, -, hb, hc, -⟩ := downloadFile_of_not_startsRequest w.dialog env hst2
        have hnl : w.replyLive = false := by
          cases hl : w.replyLive with
          | false => rfl
          | true => simp [(hlive hl).1] at hallowed
        refine ⟨?_, ?_⟩
        · intro h
          simp [Session.liveAfter, hst2, hnl] at h
        · intro h
          rw [hr]
          exact hcancel (hc ▸ h)
    | cancelDownload removeOk =>
      simp only [Session.allowed] at hallowed
      obtain ⟨r, hr⟩ := Option.isSome_iff_exists.mp (hcancel hallowed)
      obtain ⟨s1, h1, -, -, hr1, -, -, -, -, -, -⟩ :=
        cancelDownload_of_reply w.dialog r w.replyLive removeOk hr
      simp only [step, h1, Option.some.injEq] at hs
      subst hs
      exact ⟨fun h => by simp [Session.liveAfter] at h, fun _ => by simp [hr1]⟩
    | onError code text =>
      simp only [step, Option.some.injEq] at hs
      subst hs
      cases hr : w.dialog._qnr <;>
        simpa [Session.Inv, onError, hr, Session.liveAfter] using
          (⟨hlive, hcancel⟩ : w.Inv)
    | onSslErrors qsslErrs =>
      simp only [step, Option.some.injEq] at hs
      subst hs
      cases hr : w.dialog._qnr <;>
        simpa [Session.Inv, onSslErrors, hr, Session.liveAfter] using
          (⟨hlive, hcancel⟩ : w.Inv)
    | onFinished rest error errorString removeOk =>
      simp only [Session.allowed] at hallowed
      obtain ⟨-, hr, hfile⟩ := hlive hallowed
      by_cases hq : w.dialog.qNetworkReplyAborted = true
      · simp only [step, onFinished, hq, if_true, Option.some.injEq] at hs
        subst hs
        exact ⟨fun h => by simp [Session.liveAfter] at h, fun h => by simpa using hcancel h⟩
      · have hq2 : w.dialog.qNetworkReplyAborted = false := by simpa using hq
        obtain ⟨r, hr⟩ := Option.isSome_iff_exists.mp hr
        obtain ⟨f, hf⟩ := Option.isSome_iff_exists.mp (hfile hq2)
        obtain ⟨s1, h1, -, hr1, -, -, hc1, -⟩ :=
          onFinished_of_active w.dialog r f rest error errorString removeOk hq2 hr hf
        simp only [step, h1, Option.some.injEq] at hs
        subst hs
        exact ⟨fun h => by simp [Session.liveAfter] at h, fun h => by simp [hc1] at h⟩
    | onAuthenticationRequired answer =>
      simp only [step, onAuthenticationRequired, Option.some.injEq] at hs
      subst hs
      exact ⟨hlive, hcancel⟩
    | onDownloadProgress bytesRead totalBytes =>
      simp only [step, Option.some.injEq] at hs
      subst hs
      by_cases hq : w.dialog.qNetworkReplyAborted = true <;>
        simpa [Session.Inv, onDownloadProgress, hq, Session.liveAfter] using
          (⟨hlive, hcancel⟩ : w.Inv)
    | onReadyRead chunk =>
      by_cases hq : w.dialog.qNetworkReplyAborted = true
      · simp only [step, onReadyRead, hq, if_true, Option.some.injEq] at hs
        subst hs
        exact ⟨hlive, hcancel⟩
      · have hq2 : w.dialog.qNetworkReplyAborted = false := by simpa using hq
        simp only [Session.allowed] at hallowed
        obtain ⟨r, hr⟩ := Option.isSome_iff_exists.mp (hlive hallowed).2.1
        obtain ⟨f, hf⟩ := Option.isSome_iff_exists.mp ((hlive hallowed).2.2 hq2)
        simp only [step, onReadyRead, hq2, hr, hf, Bool.false_eq_true, if_false,
          Option.some.injEq] at hs
        subst hs
        simpa [Session.Inv, Session.liveAfter, hr, hf, hq2] using (⟨hlive, hcancel⟩ : w.Inv)

/-- The invariant holds in every reachable session. -/
theorem Session.inv_of_reachable (w : Session) (h : Session.Reachable w) : w.Inv := by
  induction h with
  | init url flag storage => simp [Session.Inv, DownloadDialog.create]
  | next w w2 e _ hallowed hnext ih => exact Session.inv_next w w2 e ih hallowed hnext

/-- The buttons stay exclusive under every event. -/
theorem Session.exclusive_next (w w2 : Session) (e : Event) (hex : w.Exclusive)
    (hnext : w.next e = some w2) : w2.Exclusive := by
  cases hs : step w.dialog w.replyLive e with
  | none => simp [Session.next, hs] at hnext
  | some d =>
    simp only [Session.next, hs, Option.map_some', Option.some.injEq] at hnext
    subst hnext
    cases e with
    | downloadFile env =>
      simp only [step, Option.some.injEq] at hs
      subst hs
      by_cases hst : startsRequest w.dialog env = true
      · obtain ⟨-, -, -, -, -, hb, -⟩ := downloadFile_of_startsRequest w.dialog env hst
        exact fun _ => hb
      · have hst2 : startsRequest w.dialog env = false := by simpa using hst
        obtain ⟨-, -, -, hb, hc, -⟩ := downloadFile_of_not_startsRequest w.dialog env hst2
        intro h
        exact hb.trans (hex (hc ▸ h))
    | cancelDownload removeOk =>
      cases hr : w.dialog._qnr with
      | none => simp [step, cancelDownload, hr] at hs
      | some r =>
        obtain ⟨s1, h1, -, -, -, -, -, hb, hc, -, -⟩ :=
          cancelDownload_of_reply w.dialog r w.replyLive removeOk hr
        simp only [step, h1, Option.some.injEq] at hs
        subst hs
        intro h
        exact hb.trans (hex (hc ▸ h))
    | onError code text =>
      simp only [step, Option.some.injEq] at hs
      subst hs
      cases hr : w.dialog._qnr <;> simpa [Session.Exclusive, onError, hr] using hex
    | onSslErrors qsslErrs =>
      simp only [step, Option.some.injEq] at hs
      subst hs
      cases hr : w.dialog._qnr <;> simpa [Session.Exclusive, onSslErrors, hr] using hex
    | onFinished rest error errorString removeOk =>
      by_cases hq : w.dialog.qNetworkReplyAborted = true
      · simp only [step, onFinished, hq, if_true, Option.some.injEq] at hs
        subst hs
        exact hex
      · have hq2 : w.dialog.qNetworkReplyAborted = false := by simpa using hq
        cases hr : w.dialog._qnr with
        | none => simp [step, onFinished, hq2, hr] at hs
        | some r =>
          cases hf : w.dialog.file with
          | none => simp [step, onFinished, hq2, hr, hf] at hs
          | some f =>
            obtain ⟨s1, h1, -, -, -, -, hc1, -⟩ :=
              onFinished_of_active w.dialog r f rest error errorString removeOk hq2 hr hf
            simp only [step, h1, Option.some.injEq] at hs
            subst hs
            intro h
            simp [hc1] at h
    | onAuthenticationRequired answer =>
      simp only [step, onAuthenticationRequired, Option.some.injEq] at hs
      subst hs
      exact hex
    | onDownloadProgress bytesRead totalBytes =>
      simp only [step, Option.some.injEq] at hs
      subst hs
      by_cases hq : w.dialog.qNetworkReplyAborted = true <;>
        simpa [Session.Exclusive, onDownloadProgress, hq] using hex
    | onReadyRead chunk =>
      by_cases hq : w.dialog.qNetworkReplyAborted = true
      · simp only [step, onReadyRead, hq, if_true, Option.some.injEq] at hs
        subst hs
        exact hex
      · have hq2 : w.dialog.qNetworkReplyAborted = false := by simpa using hq
        cases hr : w.dialog._qnr with
        | none => simp [step, onReadyRead, hq2, hr] at hs
        | some r =>
          cases hf : w.dialog.file with
          | none => simp [step, onReadyRead, hq2, hr, hf] at hs
          | some f =>
            simp only [step, onReadyRead, hq2, hr, hf, Bool.false_eq_true, if_false,
              Option.some.injEq] at hs
            subst hs
            exact hex

/-- The buttons are exclusive in every reachable session. -/
theorem Session.exclusive_of_reachable (w : Session) (h : Session.Reachable w) :
    w.Exclusive := by
  induction h with
  | init url flag storage => simp [Session.Exclusive, DownloadDialog.create]
  | next w w2 e _ _ hnext ih => exact Session.exclusive_next w w2 e ih hnext

/-- An allowed event keeps a cancelled session cancelled. -/
theorem Session.cancelled_next (w w2 : Session) (e : Event) (hc : w.Cancelled)
    (hallowed : w.allowed e = true) (hnext : w.next e = some w2) : w2.Cancelled := by
  obtain ⟨hq, hb, hl⟩ := hc
  cases hs : step w.dialog w.replyLive e with
  | none => simp [Session.next, hs] at hnext
  | some d =>
    simp only [Session.next, hs, Option.map_some', Option.some.injEq] at hnext
    subst hnext
    cases e with
    | downloadFile env => simp [Session.allowed, hb] at hallowed
    | onReadyRead chunk => simp [Session.allowed, hl] at hallowed
    | onFinished rest error errorString removeOk => simp [Session.allowed, hl] at hallowed
    | cancelDownload removeOk =>
      cases hr : w.dialog._qnr with
      | none => simp [step, cancelDownload, hr] at hs
      | some r =>
        obtain ⟨s1, h1, hq1, -, -, -, -, hb1, -, -, -⟩ :=
          cancelDownload_of_reply w.dialog r w.replyLive removeOk hr
        simp only [step, h1, Option.some.injEq] at hs
        subst hs
        exact ⟨hq1, hb1.trans hb, rfl⟩
    | onError code text =>
      simp only [step, Option.some.injEq] at hs
      subst hs
      cases hr : w.dialog._qnr <;>
        simp [Session.Cancelled, onError, hr, hq, hb, hl, Session.liveAfter]
    | onSslErrors qsslErrs =>
      simp only [step, Option.some.injEq] at hs
      subst hs
      cases hr : w.dialog._qnr <;>
        simp [Session.Cancelled, onSslErrors, hr, hq, hb, hl, Session.liveAfter]
    | onAuthenticationRequired answer =>
      simp only [step, onAuthenticationRequired, Option.some.injEq] at hs
      subst hs
      exact ⟨hq, hb, hl⟩
    | onDownloadProgress bytesRead totalBytes =>
      simp only [step, Option.some.injEq] at hs
      subst hs
      simp [Session.Cancelled, onDownloadProgress, hq, hb, hl, Session.liveAfter]

/-- Allowed events keep a cancelled session cancelled. -/
theorem Session.cancelled_of_steps (w w2 : Session) (hc : w.Cancelled)
    (h : Session.Steps w w2) : w2.Cancelled := by
  induction h with
  | refl => exact hc
  | tail w1 w2 e _ hallowed hnext ih => exact Session.cancelled_next w1 w2 e ih hallowed hnext

/-- With the abort flag set `onFinished` returns: it drops the file handle and
asks for the removal of its file. -/
theorem onFinished_of_aborted (s : DownloadDialog) (rest : Bytes) (error : Nat)
    (errorString : String) (removeOk : Bool) (hq : s.qNetworkReplyAborted = true) :
    ∃ s1, onFinished s rest error errorString removeOk = some s1 ∧ s1.file = none
      ∧ s1.qNetworkReplyAborted = true
      ∧ s1.storage = (match s.file with
          | some f => s.storage.remove f.fileName removeOk
          | none => s.storage) := by
  simp only [onFinished, hq, if_true]
  exact ⟨_, rfl, rfl, rfl, rfl⟩

/-- The session over the existing `file.bin` is reachable: the download button
is pressed, the overwrite is accepted and the file opens. -/
theorem exampleLockedSession_reachable : Session.Reachable exampleLockedSession :=
  Session.Reachable.next { dialog := exampleExisting, replyLive := false } exampleLockedSession
    (Event.downloadFile lockedDirectory) (Session.Reachable.init _ _ _) rfl rfl

/-- The example session is reachable: the download button of the constructed
dialog is pressed and the destination opens. -/
theorem exampleSession_reachable : Session.Reachable exampleSession :=
  Session.Reachable.next { dialog := exampleDialog, replyLive := false } exampleSession
    (Event.downloadFile writableDirectory) (Session.Reachable.init _ _ _) rfl rfl

/-! ## The claims -/

/-- C2 as stated fails: `file.bin` exists in a directory that cannot be changed,
the overwrite is accepted and the file opens.  After a chunk the session is
cancelled, or it fails with an error of the reply; the removal of the file
fails, its result is ignored, and a file of the target name still exists. -/
theorem failed_or_cancelled_session_counterexample :
    Session.Reachable exampleLockedSession
      ∧ startsRequest exampleExisting lockedDirectory = true
      ∧ (exampleLockedSession.run [Event.onReadyRead [1, 2], Event.cancelDownload false]).map
          (fun w => w.dialog.storage "file.bin") = some (some [0, 0, 0, 2, 1, 2])
      ∧ (exampleLockedSession.run
          [Event.onReadyRead [1, 2], Event.onFinished [] 203 "not found" false]).map
          (fun w => w.dialog.storage "file.bin")
            = some (some [0, 0, 0, 2, 1, 2, 255, 255, 255, 255]) :=
  ⟨exampleLockedSession_reachable, by decide, by decide, by decide⟩

/-- C2, amended: a session started by a `downloadFile` that opened the
destination, continued by any events of the running transfer, ends cancelled
(`cancelDownload`, inside which `onFinished` runs) or failed (`onFinished` with
an error of the reply other than `NoError`).  In both cases the slot returns
and the dialog holds no file handle afterwards.  No file of the target name
exists when the removal of the file succeeded; when it failed the file is
still there.  Every other name holds what it held before the slot ran. -/
theorem failed_or_cancelled_session_releases_file (s0 : DownloadDialog) (env : DownloadEnv)
    (evs : List Event)
    (hstart : startsRequest s0 env = true)
    (hmid : evs.all Event.isStream = true) :
    ∃ w2, Session.run { dialog := downloadFile s0 env, replyLive := true } evs = some w2
      ∧ (∀ removeOk, ∃ w3, w2.next (Event.cancelDownload removeOk) = some w3
          ∧ w3.dialog.file = none
          ∧ (removeOk = true → w3.dialog.storage (QFileInfo.fileName s0.url.path) = none)
          ∧ (removeOk = false →
              (w3.dialog.storage (QFileInfo.fileName s0.url.path)).isSome = true)
          ∧ (∀ n, n ≠ QFileInfo.fileName s0.url.path →
              w3.dialog.storage n = w2.dialog.storage n))
      ∧ (∀ rest error errorString removeOk, error ≠ NoError →
          ∃ w3, w2.next (Event.onFinished rest error errorString removeOk) = some w3
            ∧ w3.dialog.file = none
            ∧ (removeOk = true →
                w3.dialog.storage (QFileInfo.fileName s0.url.path) = none)
            ∧ (removeOk = false →
                (w3.dialog.storage (QFileInfo.fileName s0.url.path)).isSome = true)
            ∧ (∀ n, n ≠ QFileInfo.fileName s0.url.path →
                w3.dialog.storage n = w2.dialog.storage n)) := by
  obtain ⟨hf, hr, hq, hs, -, -, -⟩ := downloadFile_of_startsRequest s0 env hstart
  obtain ⟨s2, h2, ⟨hf2, hr2, hq2⟩, -, hsome⟩ :=
    Session.run_stream_of_active evs (downloadFile s0 env) _ ⟨hf, hr, hq⟩ hmid
  have hsome2 : (s2.storage (QFileInfo.fileName s0.url.path)).isSome = true :=
    hsome (by simp [hs])
  obtain ⟨r, hr2⟩ := Option.isSome_iff_exists.mp hr2
  refine ⟨_, h2, ?_, ?_⟩
  · intro removeOk
    obtain ⟨s3, h3, -, -, -, -, -, -, -, -, hlive⟩ :=
      cancelDownload_of_reply s2 r true removeOk hr2
    obtain ⟨hf3, hs3⟩ := hlive rfl
    refine ⟨{ dialog := s3, replyLive := false }, ?_, hf3, ?_, ?_, ?_⟩
    · simp [Session.next, step, h3, Session.liveAfter]
    · intro hok
      simp only [hs3, hf2, hok]
      exact Storage.remove_apply_self _ _
    · intro hok
      simp only [hs3, hf2, hok, Storage.remove_of_fail]
      exact hsome2
    · intro n hn
      simp only [hs3, hf2]
      exact Storage.remove_apply_of_ne _ _ _ _ hn
  · intro rest error errorString removeOk herr
    obtain ⟨s3, h3, hf3, -, -, -, -, hs3⟩ :=
      onFinished_of_active s2 r _ rest error errorString removeOk hq2 hr2 hf2
    have hne : (error != NoError) = true := by simpa using herr
    refine ⟨{ dialog := s3, replyLive := false }, ?_, hf3, ?_, ?_, ?_⟩
    · simp [Session.next, step, h3, Session.liveAfter]
    · intro hok
      simp only [hs3, hne, if_true, hok]
      exact Storage.remove_apply_self _ _
    · intro hok
      simp only [hs3, hne, if_true, hok, Storage.remove_of_fail]
      cases hc : s2.storage (QFileInfo.fileName s0.url.path) with
      | none => simp [hc] at hsome2
      | some c => simp [QDataStream.write, Storage.append, hc]
    · intro n hn
      simp only [hs3, hne, if_true]
      rw [Storage.remove_apply_of_ne _ _ _ _ hn]
      simp [QDataStream.write, Storage.append, hn]

/-- Witness of C2: the example dialog receives a chunk and a progress report. -/
theorem failed_or_cancelled_session_releases_file_witness :
    startsRequest exampleDialog writableDirectory = true
      ∧ ∃ w2, Session.run exampleSession
            [Event.onReadyRead [1, 2], Event.onDownloadProgress 2 6] = some w2
        ∧ (∃ w3, w2.next (Event.cancelDownload true) = some w3
            ∧ w3.dialog.file = none
            ∧ w3.dialog.storage (QFileInfo.fileName exampleDialog.url.path) = none)
        ∧ (∃ w3, w2.next (Event.onFinished [] 203 "not found" true) = some w3
            ∧ w3.dialog.file = none
            ∧ w3.dialog.storage (QFileInfo.fileName exampleDialog.url.path) = none) :=
  ⟨by decide,
    (failed_or_cancelled_session_releases_file exampleDialog writableDirectory
      [Event.onReadyRead [1, 2], Event.onDownloadProgress 2 6] (by decide) (by decide)).elim
      fun w2 h =>
        ⟨w2, h.1,
          (h.2.1 true).elim fun w3 h3 => ⟨w3, h3.1, h3.2.1, h3.2.2.1 rfl⟩,
          (h.2.2 [] 203 "not found" true (by decide)).elim
            fun w3 h3 => ⟨w3, h3.1, h3.2.1, h3.2.2.1 rfl⟩⟩⟩

/-- C3: when a file of the target name exists and the overwrite question is
answered No, `downloadFile` returns the state it was given: no request is
issued, the file is neither removed nor truncated, and the file handle, the
reply handle and the abort flag are as before. -/
theorem downloadFile_declined_changes_nothing (s : DownloadDialog) (env : DownloadEnv)
    (hexists : (s.storage (QFileInfo.fileName s.url.path)).isSome = true)
    (hno : env.overwrite = false) :
    downloadFile s env = s := by
  simp [downloadFile, hexists, hno]

/-- Witness of C3: the directory of the example already holds `file.bin`. -/
theorem downloadFile_declined_changes_nothing_witness :
    (exampleExisting.storage (QFileInfo.fileName exampleExisting.url.path)).isSome = true
      ∧ downloadFile exampleExisting
          { overwrite := false, removeExisting := true, removeHeld := true, openOk := true }
        = exampleExisting :=
  ⟨by decide, downloadFile_declined_changes_nothing exampleExisting
    { overwrite := false, removeExisting := true, removeHeld := true, openOk := true }
    (by decide) rfl⟩

/-- C4 as stated fails: `file.bin` exists, the overwrite is accepted, the old
file is removed and the destination then does not open, as happens when the
process has no file descriptor left.  The files are not those from before the
call. -/
theorem downloadFile_open_failure_counterexample :
    exampleExisting.storage "file.bin" = some [1, 2, 3]
      ∧ (downloadFile exampleExisting
          { overwrite := true, removeExisting := true, removeHeld := true, openOk := false }
          ).storage "file.bin" = none
      ∧ (downloadFile exampleExisting
          { overwrite := true, removeExisting := true, removeHeld := true, openOk := false }
          ).storage ≠ exampleExisting.storage := by
  refine ⟨by decide, by decide, ?_⟩
  intro h
  have h2 := congrFun h "file.bin"
  revert h2
  decide

/-- C4, amended: when `downloadFile` tries to open the destination and the open
fails, no request is issued, no reply is created, and the dialog holds no file
handle afterwards.  The file of the target name that existed before is gone
when its removal at line 93 succeeded, and the file of a handle still held is
gone when its removal at line 98 succeeded.  No file is created or changed:
every name holds what it held before or nothing, and a name that was not
removed in one of these two ways holds what it held before. -/
theorem downloadFile_open_failure (s : DownloadDialog) (env : DownloadEnv)
    (hopen : (s.storage (QFileInfo.fileName s.url.path)).isSome = false ∨ env.overwrite = true)
    (hfail : env.openOk = false) :
    (downloadFile s env)._qnam = s._qnam
      ∧ (downloadFile s env)._qnr = s._qnr
      ∧ (downloadFile s env).file = none
      ∧ (env.removeExisting = true →
          (downloadFile s env).storage (QFileInfo.fileName s.url.path) = none)
      ∧ (∀ f, s.file = some f → env.removeHeld = true →
          (downloadFile s env).storage f.fileName = none)
      ∧ (∀ n, (downloadFile s env).storage n = s.storage n
          ∨ (downloadFile s env).storage n = none)
      ∧ (∀ n, (n ≠ QFileInfo.fileName s.url.path ∨ env.removeExisting = false) →
          (∀ f, s.file = some f → n ≠ f.fileName ∨ env.removeHeld = false) →
          (downloadFile s env).storage n = s.storage n) := by
  have hd : downloadFile s env =
      { s with
        storage :=
          match s.file with
          | some f =>
            (if (s.storage (QFileInfo.fileName s.url.path)).isSome
              then s.storage.remove (QFileInfo.fileName s.url.path) env.removeExisting
              else s.storage).remove f.fileName env.removeHeld
          | none =>
            if (s.storage (QFileInfo.fileName s.url.path)).isSome
              then s.storage.remove (QFileInfo.fileName s.url.path) env.removeExisting
              else s.storage
        messageBoxes :=
          s.messageBoxes ++ ["Unable to save the file " ++ QFileInfo.fileName s.url.path]
        file := none } := by
    have hq : ((s.storage (QFileInfo.fileName s.url.path)).isSome && !env.overwrite)
        = false := by
      rcases hopen with h | h <;> simp [h]
    unfold downloadFile
    simp only [hq, hfail]
    rfl
  rw [hd]
  have hX : ∀ n, (if (s.storage (QFileInfo.fileName s.url.path)).isSome
      then s.storage.remove (QFileInfo.fileName s.url.path) env.removeExisting
      else s.storage) n = s.storage n
      ∨ (if (s.storage (QFileInfo.fileName s.url.path)).isSome
      then s.storage.remove (QFileInfo.fileName s.url.path) env.removeExisting
      else s.storage) n = none := by
    intro n
    split_ifs
    · exact Storage.remove_apply_or _ _ _ _
    · exact Or.inl rfl
  have hY : ∀ n, (n ≠ QFileInfo.fileName s.url.path ∨ env.removeExisting = false) →
      (if (s.storage (QFileInfo.fileName s.url.path)).isSome
      then s.storage.remove (QFileInfo.fileName s.url.path) env.removeExisting
      else s.storage) n = s.storage n := by
    intro n hn
    split_ifs
    · rcases hn with hn | hn
      · exact Storage.remove_apply_of_ne _ _ _ _ hn
      · rw [hn, Storage.remove_of_fail]
    · rfl
  have hZ : env.removeExisting = true →
      (if (s.storage (QFileInfo.fileName s.url.path)).isSome
      then s.storage.remove (QFileInfo.fileName s.url.path) env.removeExisting
      else s.storage) (QFileInfo.fileName s.url.path) = none := by
    intro hok
    split_ifs with he
    · rw [hok]
      exact Storage.remove_apply_self _ _
    · simpa using he
  refine ⟨rfl, rfl, rfl, ?_, ?_, ?_, ?_⟩
  · intro hok
    cases hf : s.file with
    | none => exact hZ hok
    | some f =>
      rcases Storage.remove_apply_or (if (s.storage (QFileInfo.fileName s.url.path)).isSome
        then s.storage.remove (QFileInfo.fileName s.url.path) env.removeExisting
        else s.storage) f.fileName env.removeHeld (QFileInfo.fileName s.url.path) with h | h
      · exact h.trans (hZ hok)
      · exact h
  · intro f hf hok
    simp only [hf, hok]
    exact Storage.remove_apply_self _ _
  · intro n
    cases hf : s.file with
    | none => exact hX n
    | some f =>
      rcases Storage.remove_apply_or (if (s.storage (QFileInfo.fileName s.url.path)).isSome
        then s.storage.remove (QFileInfo.fileName s.url.path) env.removeExisting
        else s.storage) f.fileName env.removeHeld n with h | h
      · rcases hX n with h2 | h2
        · exact Or.inl (h.trans h2)
        · exact Or.inr (h.trans h2)
      · exact Or.inr h
  · intro n hn hn2
    cases hf : s.file with
    | none => exact hY n hn
    | some f =>
      rcases hn2 f hf with h | h
      · exact (Storage.remove_apply_of_ne _ _ _ _ h).trans (hY n hn)
      · simp only [h, Storage.remove_of_fail]
        exact hY n hn

/-- Witness of C4: an accepted overwrite, a removal that succeeds and an open
that fails; `file.bin` is gone, `other.bin` holds what it held. -/
theorem downloadFile_open_failure_witness :
    exampleExisting.storage "file.bin" = some [1, 2, 3]
      ∧ (downloadFile exampleExisting
          { overwrite := true, removeExisting := true, removeHeld := true, openOk := false }
          ).file = none
      ∧ (downloadFile exampleExisting
          { overwrite := true, removeExisting := true, removeHeld := true, openOk := false }
          ).storage "file.bin" = none
      ∧ (downloadFile exampleExisting
          { overwrite := true, removeExisting := true, removeHeld := true, openOk := false }
          ).storage "other.bin" = some [9] :=
  have h := downloadFile_open_failure exampleExisting
    { overwrite := true, removeExisting := true, removeHeld := true, openOk := false }
    (Or.inr rfl) rfl
  ⟨by decide, h.2.2.1, h.2.2.2.1 rfl,
    (h.2.2.2.2.2.2 "other.bin" (Or.inl (by decide)) (by intro f hf; cases hf)).trans
      (by decide)⟩

/-- C10: in every session reachable from the constructed dialog by allowed
events (`downloadFile` only while the download button is enabled,
`cancelDownload` only while the cancel button is shown, `onReadyRead` and
`onFinished` only for the live reply of the latest request) every allowed event
runs without a null dereference: `onReadyRead` and `onFinished` with the abort
flag unset find both `file` and `_qnr` set, and `cancelDownload` finds `_qnr`
set. -/
theorem reachable_session_never_dereferences_null (w : Session) (e : Event)
    (hreach : Session.Reachable w) (hallowed : w.allowed e = true) :
    (step w.dialog w.replyLive e).isSome = true
      ∧ (∀ chunk, e = Event.onReadyRead chunk → w.dialog.qNetworkReplyAborted = false →
          w.dialog.file.isSome = true ∧ w.dialog._qnr.isSome = true)
      ∧ (∀ rest error errorString removeOk,
          e = Event.onFinished rest error errorString removeOk →
          w.dialog.qNetworkReplyAborted = false →
          w.dialog.file.isSome = true ∧ w.dialog._qnr.isSome = true)
      ∧ (∀ removeOk, e = Event.cancelDownload removeOk → w.dialog._qnr.isSome = true) := by
  obtain ⟨hlive, hcancel⟩ := Session.inv_of_reachable w hreach
  have hread : ∀ chunk, e = Event.onReadyRead chunk → w.dialog.qNetworkReplyAborted = false →
      w.dialog.file.isSome = true ∧ w.dialog._qnr.isSome = true := by
    intro chunk he hq
    subst he
    simp only [Session.allowed] at hallowed
    exact ⟨(hlive hallowed).2.2 hq, (hlive hallowed).2.1⟩
  have hfin : ∀ rest error errorString removeOk,
      e = Event.onFinished rest error errorString removeOk →
      w.dialog.qNetworkReplyAborted = false →
      w.dialog.file.isSome = true ∧ w.dialog._qnr.isSome = true := by
    intro rest error errorString removeOk he hq
    subst he
    simp only [Session.allowed] at hallowed
    exact ⟨(hlive hallowed).2.2 hq, (hlive hallowed).2.1⟩
  have hcan : ∀ removeOk, e = Event.cancelDownload removeOk →
      w.dialog._qnr.isSome = true := by
    intro removeOk he
    subst he
    simp only [Session.allowed] at hallowed
    exact hcancel hallowed
  refine ⟨?_, hread, hfin, hcan⟩
  cases e with
  | downloadFile env => rfl
  | cancelDownload removeOk =>
    obtain ⟨r, hr⟩ := Option.isSome_iff_exists.mp (hcan removeOk rfl)
    obtain ⟨s1, h1, -⟩ := cancelDownload_of_reply w.dialog r w.replyLive removeOk hr
    simp [step, h1]
  | onError code text => rfl
  | onSslErrors qsslErrs => rfl
  | onFinished rest error errorString removeOk =>
    by_cases hq : w.dialog.qNetworkReplyAborted = true
    · simp [step, onFinished, hq]
    · have hq2 : w.dialog.qNetworkReplyAborted = false := by simpa using hq
      obtain ⟨hf, hr⟩ := hfin rest error errorString removeOk rfl hq2
      obtain ⟨r, hr⟩ := Option.isSome_iff_exists.mp hr
      obtain ⟨f, hf⟩ := Option.isSome_iff_exists.mp hf
      simp [step, onFinished, hq2, hr, hf]
  | onAuthenticationRequired answer => rfl
  | onDownloadProgress bytesRead totalBytes => rfl
  | onReadyRead chunk =>
    by_cases hq : w.dialog.qNetworkReplyAborted = true
    · simp [step, onReadyRead, hq]
    · have hq2 : w.dialog.qNetworkReplyAborted = false := by simpa using hq
      obtain ⟨hf, hr⟩ := hread chunk rfl hq2
      obtain ⟨r, hr⟩ := Option.isSome_iff_exists.mp hr
      obtain ⟨f, hf⟩ := Option.isSome_iff_exists.mp hf
      simp [step, onReadyRead, hq2, hr, hf]

/-- Witness of C10: the example dialog after `downloadFile`, receiving a chunk. -/
theorem reachable_session_never_dereferences_null_witness :
    Session.Reachable exampleSession
      ∧ (step exampleActive true (Event.onReadyRead [7])).isSome = true
      ∧ exampleActive.file.isSome = true
      ∧ exampleActive._qnr.isSome = true := by
  have h := reachable_session_never_dereferences_null exampleSession (Event.onReadyRead [7])
    exampleSession_reachable rfl
  exact ⟨exampleSession_reachable, h.1, h.2.1 [7] rfl rfl⟩

/-- What `onDownloadProgress` does: with the abort flag set it returns the state
it was given; otherwise it passes `totalBytes` to `setMaximum` and `bytesRead`
to `setValue`, each converted to a 32-bit `int`, so that a value from `-2 ^ 31`
up to `2 ^ 31 - 1` is passed as it is. -/
theorem onDownloadProgress_spec (s : DownloadDialog) (bytesRead totalBytes : Int) :
    (s.qNetworkReplyAborted = true → onDownloadProgress s bytesRead totalBytes = s)
      ∧ (s.qNetworkReplyAborted = false →
          (onDownloadProgress s bytesRead totalBytes).progressBar.maximum
              = qint64ToInt totalBytes
            ∧ (onDownloadProgress s bytesRead totalBytes).progressBar.value
              = qint64ToInt bytesRead
            ∧ (-2 ^ 31 ≤ totalBytes → totalBytes < 2 ^ 31 →
                (onDownloadProgress s bytesRead totalBytes).progressBar.maximum = totalBytes)
            ∧ (-2 ^ 31 ≤ bytesRead → bytesRead < 2 ^ 31 →
                (onDownloadProgress s bytesRead totalBytes).progressBar.value = bytesRead)) := by
  have hrange : ∀ x : Int, -2 ^ 31 ≤ x → x < 2 ^ 31 → qint64ToInt x = x := by
    intro x h1 h2
    unfold qint64ToInt
    rw [Int.emod_eq_of_lt (by omega) (by omega)]
    omega
  constructor
  · intro h
    simp [onDownloadProgress, h]
  · intro h
    refine ⟨by simp [onDownloadProgress, h], by simp [onDownloadProgress, h], ?_, ?_⟩
    · intro h1 h2
      simp [onDownloadProgress, h, hrange totalBytes h1 h2]
    · intro h1 h2
      simp [onDownloadProgress, h, hrange bytesRead h1 h2]

/-- C6, the code at the failing input: during a download of 4294967301 bytes,
in the active example session with the abort flag unset, the progress report
of 2147483648 bytes read passes 5 to `setMaximum` and -2147483648 to
`setValue`: the indicator gets neither `totalBytes` nor `bytesRead`. -/
theorem onDownloadProgress_narrows_to_int :
    exampleActive.qNetworkReplyAborted = false
      ∧ (onDownloadProgress exampleActive 2147483648 4294967301).progressBar.maximum = 5
      ∧ (onDownloadProgress exampleActive 2147483648 4294967301).progressBar.value
          = -2147483648
      ∧ (onDownloadProgress exampleActive 2147483648 4294967301).progressBar.maximum
          ≠ 4294967301
      ∧ (onDownloadProgress exampleActive 2147483648 4294967301).progressBar.value
          ≠ 2147483648 := by
  decide

/-- C8 as stated fails: the cancel button is pressed in the active example
session.  When `cancelDownload` returns the dialog holds no file handle and
`file.bin` is removed. -/
theorem cancelDownload_counterexample :
    exampleActive.file.isSome = true
      ∧ exampleActive.storage "file.bin" = some []
      ∧ (cancelDownload exampleActive true true).map (fun s => s.file.isSome) = some false
      ∧ (cancelDownload exampleActive true true).map (fun s => s.storage "file.bin")
          = some none := by
  decide

/-- C8, amended: in an active session `cancelDownload` sets the abort flag and
calls `abort()` on the reply.  Its own statements do not close, remove or
release the destination file: when `onFinished` starts, inside `abort()`, the
file handle and the files are those from before the call.  The file is removed
by that `onFinished` only, and `cancelDownload` returns what it leaves: the
dialog holds no file handle, the file of the handle is gone when its removal
succeeded and in place when it failed, and every other name holds what it held
before. -/
theorem cancelDownload_releases_file_through_onFinished (s : DownloadDialog) (r : Nat)
    (removeOk : Bool) (hr : s._qnr = some r) :
    ∃ sMid sFin,
      sMid = onError (abortRequested s r) OperationCanceledError "Operation canceled"
        ∧ sMid.qNetworkReplyAborted = true
        ∧ sMid._qnam.aborted = s._qnam.aborted ++ [r]
        ∧ sMid.file = s.file
        ∧ sMid.storage = s.storage
        ∧ onFinished sMid [] OperationCanceledError "Operation canceled" removeOk = some sFin
        ∧ cancelDownload s true removeOk = some { sFin with closed := true }
        ∧ sFin.qNetworkReplyAborted = true
        ∧ sFin.file = none
        ∧ (∀ f, s.file = some f → removeOk = true → sFin.storage f.fileName = none)
        ∧ (removeOk = false → sFin.storage = s.storage)
        ∧ (∀ n, (∀ f, s.file = some f → n ≠ f.fileName) → sFin.storage n = s.storage n) := by
  have hmid : (onError (abortRequested s r) OperationCanceledError
      "Operation canceled").qNetworkReplyAborted = true := by
    simp [onError, abortRequested, hr]
  have hfile : (onError (abortRequested s r) OperationCanceledError
      "Operation canceled").file = s.file := by
    simp [onError, abortRequested, hr]
  have hstore : (onError (abortRequested s r) OperationCanceledError
      "Operation canceled").storage = s.storage := by
    simp [onError, abortRequested, hr]
  have hab : (onError (abortRequested s r) OperationCanceledError
      "Operation canceled")._qnam.aborted = s._qnam.aborted ++ [r] := by
    simp [onError, abortRequested, hr, QNetworkAccessManager.abort]
  obtain ⟨sFin, hfin, hf1, hq1, hs1⟩ := onFinished_of_aborted
    (onError (abortRequested s r) OperationCanceledError "Operation canceled") []
    OperationCanceledError "Operation canceled" removeOk hmid
  rw [hfile, hstore] at hs1
  refine ⟨_, sFin, rfl, hmid, hab, hfile, hstore, hfin, ?_, hq1, hf1, ?_, ?_, ?_⟩
  · simp only [cancelDownload, hr, if_true, hfin, Option.map_some']
  · intro f hf hok
    simp only [hs1, hf, hok]
    exact Storage.remove_apply_self _ _
  · intro hok
    cases hf : s.file with
    | none => simp only [hs1, hf]
    | some f => simp only [hs1, hf, hok, Storage.remove_of_fail]
  · intro n hn
    cases hf : s.file with
    | none => simp only [hs1, hf]
    | some f =>
      simp only [hs1, hf]
      exact Storage.remove_apply_of_ne _ _ _ _ (hn f hf)

/-- Witness of C8: the active example dialog, with a removal that succeeds. -/
theorem cancelDownload_releases_file_through_onFinished_witness :
    exampleActive._qnr = some 0
      ∧ exampleActive.file = some { fileName := "file.bin", isOpen := true }
      ∧ exampleActive.storage "file.bin" = some []
      ∧ ∃ sMid sFin, sMid.file = exampleActive.file
          ∧ sMid.storage = exampleActive.storage
          ∧ onFinished sMid [] OperationCanceledError "Operation canceled" true = some sFin
          ∧ cancelDownload exampleActive true true = some { sFin with closed := true }
          ∧ sFin.file = none
          ∧ sFin.storage "file.bin" = none :=
  ⟨rfl, rfl, by decide,
    (cancelDownload_releases_file_through_onFinished exampleActive 0 true rfl).elim
      fun sMid h => h.elim fun sFin h1 =>
        ⟨sMid, sFin, h1.2.2.2.1, h1.2.2.2.2.1, h1.2.2.2.2.2.1, h1.2.2.2.2.2.2.1,
          h1.2.2.2.2.2.2.2.2.1, h1.2.2.2.2.2.2.2.2.2.1 _ rfl rfl⟩⟩

/-- C9: in a reachable session `cancelDownload` returns with the abort flag
set, and the flag is still set after every sequence of events that can be
delivered afterwards: the download button stays disabled, so `downloadFile`,
the one slot that clears the flag, does not run again. -/
theorem abort_flag_stays_set (w : Session) (removeOk : Bool)
    (hreach : Session.Reachable w)
    (hallowed : w.allowed (Event.cancelDownload removeOk) = true) :
    ∃ w1, w.next (Event.cancelDownload removeOk) = some w1
      ∧ w1.dialog.qNetworkReplyAborted = true
      ∧ ∀ w2, Session.Steps w1 w2 → w2.dialog.qNetworkReplyAborted = true := by
  obtain ⟨-, hcancel⟩ := Session.inv_of_reachable w hreach
  have hex := Session.exclusive_of_reachable w hreach
  simp only [Session.allowed] at hallowed
  obtain ⟨r, hr⟩ := Option.isSome_iff_exists.mp (hcancel hallowed)
  obtain ⟨s1, h1, hq, -, -, -, -, hb, -, -, -⟩ :=
    cancelDownload_of_reply w.dialog r w.replyLive removeOk hr
  have hc : Session.Cancelled { dialog := s1, replyLive := false } :=
    ⟨hq, hb.trans (hex hallowed), rfl⟩
  refine ⟨{ dialog := s1, replyLive := false }, ?_, hq, ?_⟩
  · simp [Session.next, step, h1, Session.liveAfter]
  · intro w2 hsteps
    exact (Session.cancelled_of_steps _ w2 hc hsteps).1

/-- Witness of C9: the cancel button is pressed in the example session; later a
progress report arrives and the cancel button is pressed once more. -/
theorem abort_flag_stays_set_witness :
    Session.Reachable exampleSession
      ∧ ∃ w1, exampleSession.next (Event.cancelDownload true) = some w1
          ∧ w1.dialog.qNetworkReplyAborted = true
          ∧ ∀ wa wb, w1.next (Event.onDownloadProgress 1 1) = some wa →
              wa.allowed (Event.cancelDownload true) = true →
              wa.next (Event.cancelDownload true) = some wb →
              wb.dialog.qNetworkReplyAborted = true := by
  refine ⟨exampleSession_reachable, ?_⟩
  obtain ⟨w1, h1, hq, hlater⟩ := abort_flag_stays_set exampleSession true
    exampleSession_reachable rfl
  refine ⟨w1, h1, hq, ?_⟩
  intro wa wb ha hallowed hb
  exact hlater wb (Session.Steps.tail w1 wa wb (Event.cancelDownload true)
    (Session.Steps.tail w1 w1 wa (Event.onDownloadProgress 1 1) (Session.Steps.refl w1) rfl ha)
    hallowed hb)

/-- Chunks delivered to an active session are appended to the file, each in the
serialised form. -/
theorem Session.run_chunks_of_active (cs : List Bytes) (s : DownloadDialog) (name : String)
    (c : Bytes) (ha : Active s name) (hc : s.storage name = some c) :
    ∃ s1, Session.run { dialog := s, replyLive := true } (cs.map Event.onReadyRead)
        = some { dialog := s1, replyLive := true }
      ∧ Active s1 name ∧ s1.storage name = some (c ++ framed cs) := by
  induction cs generalizing s c with
  | nil => exact ⟨s, rfl, ha, by simp [framed, hc]⟩
  | cons b bs ih =>
    obtain ⟨hf, hr, hq⟩ := ha
    obtain ⟨r, hr⟩ := Option.isSome_iff_exists.mp hr
    have hstep : Session.next { dialog := s, replyLive := true } (Event.onReadyRead b)
        = some { dialog := { s with storage := QDataStream.write s.storage ⟨name, true⟩ b },
                 replyLive := true } := by
      simp [Session.next, step, onReadyRead, hq, hr, hf, Session.liveAfter]
    obtain ⟨s1, h1, ha1, hc1⟩ :=
      ih { s with storage := QDataStream.write s.storage ⟨name, true⟩ b }
        (c ++ QDataStream.serialize b) ⟨hf, by simp [hr], hq⟩
        (by simp [QDataStream.write, Storage.append, hc])
    refine ⟨s1, ?_, ha1, ?_⟩
    · simp [Session.run, hstep, h1]
    · simp [hc1, framed]

/-- Running a sequence of events and then one more event. -/
theorem Session.run_concat (evs : List Event) (w : Session) (e : Event) :
    w.run (evs ++ [e]) = (w.run evs).bind (fun w1 => w1.next e) := by
  induction evs generalizing w with
  | nil => simp [Session.run]
  | cons a as ih =>
    cases h : w.next a with
    | none => simp [Session.run, h]
    | some w1 => simp [Session.run, h, ih]

/-- The content of the file after a session that is neither cancelled nor
failed: the serialised chunks followed by the serialised final read. -/
theorem successful_session_content (s0 : DownloadDialog) (env : DownloadEnv)
    (cs : List Bytes) (rest : Bytes) (errorString : String) (removeOk : Bool)
    (hstart : startsRequest s0 env = true) :
    ∃ w3, Session.run { dialog := downloadFile s0 env, replyLive := true }
        (cs.map Event.onReadyRead ++ [Event.onFinished rest NoError errorString removeOk])
        = some w3
      ∧ w3.dialog.storage (QFileInfo.fileName s0.url.path)
          = some (framed cs ++ QDataStream.serialize rest)
      ∧ w3.dialog.file = none := by
  obtain ⟨hf, hr, hq, hs, -, -, -⟩ := downloadFile_of_startsRequest s0 env hstart
  obtain ⟨s2, h2, ⟨hf2, hr2, hq2⟩, hc2⟩ :=
    Session.run_chunks_of_active cs (downloadFile s0 env) _ [] ⟨hf, hr, hq⟩ hs
  obtain ⟨r, hr2⟩ := Option.isSome_iff_exists.mp hr2
  obtain ⟨s3, h3, hf3, -, -, -, -, hs3⟩ :=
    onFinished_of_active s2 r _ rest NoError errorString removeOk hq2 hr2 hf2
  refine ⟨{ dialog := s3, replyLive := false }, ?_, ?_, hf3⟩
  · rw [Session.run_concat, h2]
    simp [Session.next, step, h3, Session.liveAfter]
  · simp [hs3, QDataStream.write, Storage.append, hc2]

/-- Every `writeStream << chunk` writes four bytes more than the chunk holds. -/
theorem QDataStream.serialize_length (ba : Bytes) :
    (QDataStream.serialize ba).length = ba.length + 4 := by
  unfold QDataStream.serialize
  split_ifs with h
  · simp [h]
  · simp [quint32Bytes]

/-- C1, the code at the failing input: the example session receives the chunks
`[1, 2]`, `[3]` and `[4, 5, 6]` and finishes without error and with nothing left
to read.  The file does not hold the six bytes received: each chunk is preceded
by its length as four bytes, and the final empty read adds four bytes `0xFF`.
Three chunks of 400, 400 and 200 bytes leave a file of 1016 bytes. -/
theorem successful_session_artifact_is_framed :
    (exampleSession.run
        [Event.onReadyRead [1, 2], Event.onReadyRead [3], Event.onReadyRead [4, 5, 6],
          Event.onFinished [] NoError "" true]).map (fun w => w.dialog.storage "file.bin")
        = some (some [0, 0, 0, 2, 1, 2, 0, 0, 0, 1, 3, 0, 0, 0, 3, 4, 5, 6, 255, 255, 255, 255])
      ∧ (exampleSession.run
        [Event.onReadyRead [1, 2], Event.onReadyRead [3], Event.onReadyRead [4, 5, 6],
          Event.onFinished [] NoError "" true]).map (fun w => w.dialog.storage "file.bin")
        ≠ some (some ([1, 2] ++ [3] ++ [4, 5, 6]))
      ∧ (exampleSession.run
        [Event.onReadyRead (List.replicate 400 0), Event.onReadyRead (List.replicate 400 0),
          Event.onReadyRead (List.replicate 200 0), Event.onFinished [] NoError "" true]).map
            (fun w => (w.dialog.storage "file.bin").map List.length)
        = some (some 1016) := by
  refine ⟨by decide, by decide, ?_⟩
  obtain ⟨w3, h3, hc, -⟩ := successful_session_content exampleDialog writableDirectory
    [List.replicate 400 0, List.replicate 400 0, List.replicate 200 0] [] "" true (by decide)
  have hname : QFileInfo.fileName exampleDialog.url.path = "file.bin" := by decide
  have h3b : exampleSession.run
      [Event.onReadyRead (List.replicate 400 0), Event.onReadyRead (List.replicate 400 0),
        Event.onReadyRead (List.replicate 200 0), Event.onFinished [] NoError "" true]
      = some w3 := h3
  have hlen : ∀ a b c : Bytes, (framed [a, b, c] ++ QDataStream.serialize []).length
      = a.length + b.length + c.length + 16 := by
    intro a b c
    simp only [framed, List.length_append, QDataStream.serialize_length, List.length_nil]
    omega
  rw [hname] at hc
  rw [h3b, Option.map_some', hc, Option.map_some', hlen]
  simp only [List.length_replicate]

end Gui.Dialog
